import Mathlib

/-!
Shallow embedding of the violation-tracker scraping pipeline
(`src/main.py`, the MySQL/Cloud variant, and `src/scraper.py`, the
SQLite/local variant).  The two files share the fetch → parse →
normalize → dedup-persist core almost verbatim; shared pieces are
modelled once, and the points where the two variants differ (the run
logger and the top-level driver) are modelled separately in the
`MainPy` and `ScraperPy` namespaces.

Machine-level conventions: Python `str` cell text is `String`, with the
text primitives (`strip`, single-character `replace`, `int()`, `float()`)
re-implemented structurally over `List Char` so that they evaluate by
kernel reduction; Python `float` penalty values are modelled as `ℚ`
(the penalty cells hold exact decimal literals, which doubles represent
exactly at this scale and which compare like rationals); fallible code
returns `Except`/`Option`; the database table is a list of rows in
insertion order.
-/

deriving instance DecidableEq for Except

namespace ViolationTracker

/-- Python's `str.strip()`: drop leading and trailing whitespace.
Implemented over the character list so it reduces in the kernel. -/
def pyStrip (s : String) : String :=
  ⟨((s.data.dropWhile Char.isWhitespace).reverse.dropWhile Char.isWhitespace).reverse⟩

/-- Python's `str.replace(c, '')` for a single-character pattern:
remove every occurrence of `c`. -/
def removeChar (s : String) (c : Char) : String :=
  ⟨s.data.filter (fun x => x != c)⟩

/-- Numeric value of a digit list (most significant first). -/
def natOfDigits (cs : List Char) : Nat :=
  cs.foldl (fun n c => 10 * n + (c.toNat - 48)) 0

/-- All characters are ASCII digits. -/
def allDigits (cs : List Char) : Bool :=
  cs.all Char.isDigit

/-- Parse a non-empty all-digit character list. -/
def parseNatDigits (cs : List Char) : Option Nat :=
  if cs.isEmpty then none
  else if allDigits cs then some (natOfDigits cs) else none

/-- Python's `int()` on an already-stripped string: optional sign
followed by at least one digit. -/
def parseInt (s : String) : Option Int :=
  if s.data.head? = some '-' then (parseNatDigits s.data.tail).map (fun n => -(n : Int))
  else if s.data.head? = some '+' then (parseNatDigits s.data.tail).map (fun n => (n : Int))
  else (parseNatDigits s.data).map (fun n => (n : Int))

/-- Unsigned part of Python's `float()` on a plain decimal literal:
digits with an optional single decimal point, with at least one digit
overall (`"5."`, `".5"` and `"5.25"` are accepted, `"."` and `""` are
not).  Exponents, `inf` and `nan` never occur in penalty cells and are
omitted. -/
def parseUnsignedDec (cs : List Char) : Option ℚ :=
  let ip := cs.takeWhile (fun c => c != '.')
  let rest := cs.dropWhile (fun c => c != '.')
  if rest.isEmpty then
    if ip.isEmpty then none
    else if allDigits ip then some ((natOfDigits ip : ℚ)) else none
  else
    let fp := rest.tail
    if ip.isEmpty && fp.isEmpty then none
    else if allDigits ip && allDigits fp then
      some ((natOfDigits ip : ℚ) + (natOfDigits fp : ℚ) / ((10 : ℚ) ^ fp.length))
    else none

/-- Python's `float()` on an already-stripped decimal literal. -/
def parseDecimal (s : String) : Option ℚ :=
  if s.data.head? = some '-' then (parseUnsignedDec s.data.tail).map (fun q => -q)
  else if s.data.head? = some '+' then parseUnsignedDec s.data.tail
  else parseUnsignedDec s.data

/-- One normalized scraped record (the dict built per table row, and
the column shape of the `violations` table minus the storage-assigned
`id`/`created_at`). -/
structure ViolationRecord where
  company : String
  current_parent : Option String
  current_parent_industry : Option String
  primary_offense_type : String
  year : Int
  agency : String
  penalty_amount : ℚ
deriving DecidableEq

/-- The natural key of the `UNIQUE (company, year, agency, penalty_amount)`
constraint of `create_table`. -/
def recordKey (r : ViolationRecord) : String × Int × String × ℚ :=
  (r.company, r.year, r.agency, r.penalty_amount)

/-- The store: the `violations` table as a list of rows in insertion
order.  `insertIgnore` is one `INSERT OR IGNORE` / `INSERT IGNORE`
statement: a no-op when some stored row already has the same natural
key, an append otherwise. -/
def insertIgnore (db : List ViolationRecord) (r : ViolationRecord) :
    List ViolationRecord :=
  if db.any (fun row => recordKey row == recordKey r) then db else db ++ [r]

/-- `store_records` (identical in both source files): one
insert-if-absent per record, in list order, committed once. -/
def store_records (db : List ViolationRecord)
    (records : List ViolationRecord) : List ViolationRecord :=
  records.foldl insertIgnore db

/-- At most one stored row per natural-key value. -/
def KeysUnique (db : List ViolationRecord) : Prop :=
  db.Pairwise (fun a b => recordKey a ≠ recordKey b)

/-- Some stored row carries the key `k`. -/
def HasKey (db : List ViolationRecord) (k : String × Int × String × ℚ) : Prop :=
  ∃ row ∈ db, recordKey row = k

/-- Store states reachable from the empty table through `store_records`
batches. -/
inductive Reachable : List ViolationRecord → Prop
  | init : Reachable []
  | step (db rs : List ViolationRecord) :
      Reachable db → Reachable (store_records db rs)

/-- The exception aborting normalization of one table row:
`indexError` is `cols[6]` on a short row, the parse errors are the
`ValueError`s of `float(penalty_text)` and `int(cols[4]...)`. -/
inductive NormError where
  | indexError
  | penaltyParseError
  | yearParseError
deriving DecidableEq

/-- `cols[6].text.strip().replace('$', '').replace(',', '')`. -/
def stripPenalty (t : String) : String :=
  removeChar (removeChar (pyStrip t) '$') ','

/-- `float(penalty_text) if penalty_text else 0.0` applied to the
stripped cell: empty text is `0.0`, otherwise a failed `float()` raises. -/
def normalizePenalty (t : String) : Except NormError ℚ :=
  let s := stripPenalty t
  if s = "" then .ok 0
  else
    match parseDecimal s with
    | some q => .ok q
    | none => .error .penaltyParseError

/-- `cols[i].text.strip() or None`: empty-after-strip optional cells
become null. -/
def optText (s : String) : Option String :=
  if pyStrip s = "" then none else some (pyStrip s)

/-- Normalization of one table row (the `record = {...}` construction):
evaluation order follows the source — `cols[6]` is read first (an
`IndexError` on short rows), then the penalty is parsed, then the year. -/
def normalizeRow (cols : List String) : Except NormError ViolationRecord :=
  if cols.length < 7 then .error .indexError
  else
    match normalizePenalty (cols.getD 6 "") with
    | .error e => .error e
    | .ok q =>
      match parseInt (pyStrip (cols.getD 4 "")) with
      | none => .error .yearParseError
      | some y =>
        .ok { company := pyStrip (cols.getD 0 "")
            , current_parent := optText (cols.getD 1 "")
            , current_parent_industry := optText (cols.getD 2 "")
            , primary_offense_type := pyStrip (cols.getD 3 "")
            , year := y
            , agency := pyStrip (cols.getD 5 "")
            , penalty_amount := q }

/-- All rows of a page normalize successfully, yielding the records in
row order (`none` when some row raises). -/
def normalizeAll (rows : List (List String)) : Option (List ViolationRecord) :=
  match rows with
  | [] => some []
  | row :: rest =>
    match normalizeRow row with
    | .error _ => none
    | .ok r => (normalizeAll rest).map (fun rs => r :: rs)

/-- What one page of the loop in `scrape_violation_tracker` delivers,
after the external fetch and HTML parse: the fetch raised (after retry
exhaustion, or a non-retried exception), `soup.find` found no
`views-table`, or the table's `tbody` rows as lists of cell texts. -/
inductive PageInput where
  | fetchFail
  | noTable
  | table (rows : List (List String))

/-- The inner `for row in rows` loop.  Each normalized record is
appended to the run-wide accumulator immediately; an exception while
normalizing a row aborts the page, keeping the records appended so far
(the page-level `except ... continue` swallows the exception). -/
def processRows (acc : List ViolationRecord) :
    List (List String) → List ViolationRecord
  | [] => acc
  | row :: rest =>
    match normalizeRow row with
    | .ok r => processRows (acc ++ [r]) rest
    | .error _ => acc

/-- One iteration of the page loop: a failed fetch or a missing table
leaves the accumulator unchanged (`continue`), otherwise the rows are
normalized and appended in order. -/
def processPage (acc : List ViolationRecord) : PageInput → List ViolationRecord
  | .fetchFail => acc
  | .noTable => acc
  | .table rows => processRows acc rows

/-- `scrape_violation_tracker` (identical in both files): pages 1..3
are processed in order into one accumulator, starting empty.  The
function is total — no page outcome raises out of it.  The inter-page
`time.sleep(10)` and the URL construction do not affect the record
flow and are not modelled. -/
def scrape_violation_tracker (pages : List PageInput) : List ViolationRecord :=
  pages.foldl processPage []

/-- What one `urllib.request.urlopen` attempt raises:
`urllib.error.HTTPError` (the only class tenacity is told to retry) or
any other exception, e.g. a socket timeout. -/
inductive FetchExc where
  | httpError
  | timeoutError
deriving DecidableEq

/-- Observable trace of one `fetch_page(url)` call: the final outcome,
the attempt numbers executed, and the `before_sleep` log events as
(attempt number, wait) pairs — one per retry, emitted by the decorator
together with the attempt number. -/
structure FetchTrace where
  result : Except FetchExc String
  attempts : List Nat
  sleeps : List (Nat × Nat)

/-- tenacity 8.x `wait_exponential(multiplier, min, max)` with
`exp_base = 2`, queried after attempt number `attempt`:
`max(max(0, min), min(multiplier * 2^(attempt - 1), max))`. -/
def wait_exponential (multiplier lo hi attempt : Nat) : Nat :=
  max (max 0 lo) (min (multiplier * 2 ^ (attempt - 1)) hi)

/-- The retry driver of the `@retry` decorator: `stop_after_attempt 3`,
`retry_if_exception_type(HTTPError)`, `wait_exponential(multiplier=1,
min=2, max=10)`.  `remaining` counts the attempts still allowed
(including the current one); a non-HTTP exception propagates at once,
an HTTP error within budget logs the attempt number, waits, and
retries, and an HTTP error on the last allowed attempt propagates. -/
def retryLoop (f : Nat → Except FetchExc String) :
    Nat → Nat → FetchTrace
  | _, 0 => ⟨.error .httpError, [], []⟩
  | attempt, rem + 1 =>
    match f attempt with
    | .ok s => ⟨.ok s, [attempt], []⟩
    | .error .timeoutError => ⟨.error .timeoutError, [attempt], []⟩
    | .error .httpError =>
      if rem = 0 then ⟨.error .httpError, [attempt], []⟩
      else
        let t := retryLoop f (attempt + 1) rem
        ⟨t.result, attempt :: t.attempts,
          (attempt, wait_exponential 1 2 10 attempt) :: t.sleeps⟩

/-- `fetch_page` under its decorator, driven by an oracle `f` giving
each attempt's outcome: up to 3 total attempts starting at attempt 1. -/
def fetch_page (f : Nat → Except FetchExc String) : FetchTrace :=
  retryLoop f 1 3

/-- One run-log entry `{'timestamp': ..., 'records_processed': ...}`. -/
structure RunLog where
  timestamp : Nat
  records_processed : Nat
deriving DecidableEq

end ViolationTracker

namespace MainPy

open ViolationTracker

/-- `save_logs` of `src/main.py`: builds the log object and uploads it
to Cloud Storage inside `try/except` — a failed upload is logged and
swallowed, so the call never raises; it yields the entries actually
persisted (`logOk` is the log sink's availability, `now` the wall
clock). -/
def save_logs (logOk : Bool) (now n : Nat) : List RunLog :=
  if logOk then [⟨now, n⟩] else []

/-- `main_scraper` of `src/main.py`, on runs where connection, table
creation and storage succeed: scrape, store and log only when at least
one record was scraped, and return the final database plus the run-log
entries written.  The surrounding `try/except/finally` catches every
exception, so the function is total. -/
def main_scraper (pages : List PageInput) (logOk : Bool) (now : Nat)
    (db : List ViolationRecord) : List ViolationRecord × List RunLog :=
  let records := scrape_violation_tracker pages
  if records.isEmpty then (db, [])
  else (store_records db records, save_logs logOk now records.length)

end MainPy

namespace ScraperPy

open ViolationTracker

/-- `save_logs` of `src/scraper.py`: writes the log file with no
exception handler — a failed write raises to the caller. -/
def save_logs (logOk : Bool) (now n : Nat) : Except Unit RunLog :=
  if logOk then .ok ⟨now, n⟩ else .error ()

/-- `main` of `src/scraper.py`, on runs where connection, table
creation and storage succeed: scrape, store when non-empty, then call
`save_logs` unconditionally.  `main` has only a `finally` (closing the
connection), no `except`: a log-write failure propagates out of the
run.  The first component is the database state, which the `finally`
does not undo (storage committed earlier); the second is the run-log
outcome. -/
def main (pages : List PageInput) (logOk : Bool) (now : Nat)
    (db : List ViolationRecord) :
    List ViolationRecord × Except Unit (List RunLog) :=
  let records := scrape_violation_tracker pages
  let db' := if records.isEmpty then db else store_records db records
  match save_logs logOk now records.length with
  | .ok entry => (db', .ok [entry])
  | .error e => (db', .error e)

end ScraperPy

namespace ViolationTracker

/-- Sample normalized rows used by the concrete witnesses below. -/
def acmeRow : List String :=
  ["Acme Co", "", "", "Pollution", "2019", "EPA", "$100"]

/-- A row whose year cell is non-numeric: its penalty parses, then
`int("20x0")` raises, aborting the page's remaining rows. -/
def badYearRow : List String :=
  ["Beta Corp", "", "", "Fraud", "20x0", "SEC", "$5"]

/-- A row whose penalty cell is non-numeric after stripping. -/
def badPenaltyRow : List String :=
  ["Gamma Inc", "", "", "Waste", "2019", "EPA", "n/a"]

/-- The record `acmeRow` normalizes to. -/
def acmeRecord : ViolationRecord :=
  { company := "Acme Co"
  , current_parent := none
  , current_parent_industry := none
  , primary_offense_type := "Pollution"
  , year := 2019
  , agency := "EPA"
  , penalty_amount := 100 }

/-- `acmeRecord` with a different parent but the same natural key. -/
def acmeRecordOtherParent : ViolationRecord :=
  { acmeRecord with current_parent := some "Acme Holdings" }

/-- A second sample record with a distinct natural key. -/
def betaRecord : ViolationRecord :=
  { company := "Beta Corp"
  , current_parent := some "Beta Group"
  , current_parent_industry := some "finance"
  , primary_offense_type := "Fraud"
  , year := 2020
  , agency := "SEC"
  , penalty_amount := 0 }

/-- A row normalizing to `betaRecord` (empty penalty cell → `0.0`). -/
def betaRow : List String :=
  [" Beta Corp ", "Beta Group", "finance", "Fraud", " 2020 ", "SEC", " "]

/-- `HasKey` matches the Boolean duplicate test inside `insertIgnore`. -/
theorem hasKey_iff_any (db : List ViolationRecord) (k : String × Int × String × ℚ) :
    HasKey db k ↔ db.any (fun row => recordKey row == k) = true := by
  simp [HasKey, List.any_eq_true, beq_iff_eq]

/-- An insert whose key is already stored is a no-op. -/
theorem insertIgnore_of_hasKey {db : List ViolationRecord} {r : ViolationRecord}
    (h : HasKey db (recordKey r)) : insertIgnore db r = db := by
  unfold insertIgnore
  rw [if_pos ((hasKey_iff_any db (recordKey r)).1 h)]

/-- After inserting `r`, its key is stored. -/
theorem hasKey_insertIgnore_self (db : List ViolationRecord) (r : ViolationRecord) :
    HasKey (insertIgnore db r) (recordKey r) := by
  unfold insertIgnore
  by_cases h : db.any (fun row => recordKey row == recordKey r) = true
  · rw [if_pos h]
    exact (hasKey_iff_any db _).2 h
  · rw [if_neg h]
    exact ⟨r, by simp, rfl⟩

/-- Inserting never removes a stored key. -/
theorem hasKey_insertIgnore_mono {db : List ViolationRecord}
    {k : String × Int × String × ℚ} (r : ViolationRecord) (h : HasKey db k) :
    HasKey (insertIgnore db r) k := by
  unfold insertIgnore
  split
  · exact h
  · obtain ⟨row, hm, hk⟩ := h
    exact ⟨row, by simp [hm], hk⟩

/-- A batch insert never removes a stored key. -/
theorem hasKey_store_records_mono {k : String × Int × String × ℚ}
    (rs : List ViolationRecord) :
    ∀ db : List ViolationRecord, HasKey db k → HasKey (store_records db rs) k := by
  induction rs with
  | nil => intro db h; exact h
  | cons r rest ih => intro db h; exact ih _ (hasKey_insertIgnore_mono r h)

/-- After a batch insert, every batch record's key is stored. -/
theorem hasKey_store_records_all (rs : List ViolationRecord) :
    ∀ db : List ViolationRecord, ∀ r ∈ rs, HasKey (store_records db rs) (recordKey r) := by
  induction rs with
  | nil => intro db r h; cases h
  | cons a rest ih =>
    intro db r h
    cases h with
    | head => exact hasKey_store_records_mono rest _ (hasKey_insertIgnore_self db a)
    | tail _ hm => exact ih _ r hm

/-- A batch whose keys are all already stored changes nothing. -/
theorem store_records_of_hasKey_all (rs : List ViolationRecord) :
    ∀ db : List ViolationRecord, (∀ r ∈ rs, HasKey db (recordKey r)) →
      store_records db rs = db := by
  induction rs with
  | nil => intro db _; rfl
  | cons a rest ih =>
    intro db h
    have ha : insertIgnore db a = db := insertIgnore_of_hasKey (h a (by simp))
    calc store_records db (a :: rest) = store_records (insertIgnore db a) rest := rfl
      _ = store_records db rest := by rw [ha]
      _ = db := ih db (fun r hr => h r (by simp [hr]))

/-- One insert preserves key uniqueness. -/
theorem keysUnique_insertIgnore {db : List ViolationRecord} (r : ViolationRecord)
    (h : KeysUnique db) : KeysUnique (insertIgnore db r) := by
  unfold insertIgnore
  split
  · exact h
  · rename_i hany
    refine List.pairwise_append.2 ⟨h, List.pairwise_singleton _ _, ?_⟩
    intro a ha b hb
    have hb' : b = r := by simpa using hb
    subst hb'
    intro hk
    exact hany (List.any_eq_true.2 ⟨a, ha, by simp [hk]⟩)

/-- A batch insert preserves key uniqueness. -/
theorem keysUnique_store_records (rs : List ViolationRecord) :
    ∀ db : List ViolationRecord, KeysUnique db → KeysUnique (store_records db rs) := by
  induction rs with
  | nil => intro db h; exact h
  | cons r rest ih => intro db h; exact ih _ (keysUnique_insertIgnore r h)

/-- A fully normalizing page appends exactly its records, in row order. -/
theorem processRows_ok :
    ∀ (rows : List (List String)) (recs : List ViolationRecord)
      (acc : List ViolationRecord), normalizeAll rows = some recs →
      processRows acc rows = acc ++ recs := by
  intro rows
  induction rows with
  | nil =>
    intro recs acc h
    simp only [normalizeAll, Option.some.injEq] at h
    subst h
    simp [processRows]
  | cons row rest ih =>
    intro recs acc h
    rw [normalizeAll] at h
    cases hr : normalizeRow row with
    | error e => rw [hr] at h; cases h
    | ok r =>
      rw [hr] at h
      cases hrest : normalizeAll rest with
      | none => rw [hrest] at h; cases h
      | some rs =>
        rw [hrest] at h
        simp only [Option.map_some', Option.some.injEq] at h
        subst h
        simp only [processRows, hr]
        rw [ih rs (acc ++ [r]) hrest]
        simp

/-- A page failing at row `bad` keeps the rows already normalized
before it and drops everything from `bad` on. -/
theorem processRows_abort :
    ∀ (pre : List (List String)) (recs : List ViolationRecord)
      (acc : List ViolationRecord) (bad : List String)
      (rest : List (List String)) (e : NormError),
      normalizeAll pre = some recs → normalizeRow bad = .error e →
      processRows acc (pre ++ bad :: rest) = acc ++ recs := by
  intro pre
  induction pre with
  | nil =>
    intro recs acc bad rest e h hbad
    simp only [normalizeAll, Option.some.injEq] at h
    subst h
    simp [processRows, hbad]
  | cons row rtl ih =>
    intro recs acc bad rest e h hbad
    rw [normalizeAll] at h
    cases hr : normalizeRow row with
    | error e' => rw [hr] at h; cases h
    | ok r =>
      rw [hr] at h
      cases hrtl : normalizeAll rtl with
      | none => rw [hrtl] at h; cases h
      | some rs =>
        rw [hrtl] at h
        simp only [Option.map_some', Option.some.injEq] at h
        subst h
        simp only [List.cons_append, processRows, hr]
        show processRows (acc ++ [r]) (rtl ++ bad :: rest) = acc ++ r :: rs
        rw [ih rs (acc ++ [r]) bad rest e hrtl hbad]
        simp

/-- The inner loop only ever appends to the run-wide accumulator. -/
theorem processRows_acc (rows : List (List String)) :
    ∀ acc : List ViolationRecord, processRows acc rows = acc ++ processRows [] rows := by
  induction rows with
  | nil => intro acc; simp [processRows]
  | cons row rest ih =>
    intro acc
    cases hr : normalizeRow row with
    | error e => simp [processRows, hr]
    | ok r =>
      simp only [processRows, hr]
      rw [ih (acc ++ [r]), ih ([] ++ [r])]
      simp

/-- One page step only ever appends to the accumulator. -/
theorem processPage_acc (p : PageInput) (acc : List ViolationRecord) :
    processPage acc p = acc ++ processPage [] p := by
  cases p with
  | fetchFail => simp [processPage]
  | noTable => simp [processPage]
  | table rows => exact processRows_acc rows acc

/-- The aggregated output decomposes page by page, in page order. -/
theorem scrape_cons (p : PageInput) (ps : List PageInput) :
    scrape_violation_tracker (p :: ps) =
      processPage [] p ++ scrape_violation_tracker ps := by
  have haux : ∀ (qs : List PageInput) (acc : List ViolationRecord),
      qs.foldl processPage acc = acc ++ qs.foldl processPage [] := by
    intro qs
    induction qs with
    | nil => intro acc; simp
    | cons q rest ih =>
      intro acc
      simp only [List.foldl_cons]
      rw [processPage_acc q acc, ih (acc ++ processPage [] q), ih (processPage [] q)]
      simp
  show (p :: ps).foldl processPage [] = _
  simp only [List.foldl_cons]
  rw [haux ps (processPage [] p)]
  rfl

/-- At most `rem` attempts are executed. -/
theorem retryLoop_attempts_length (f : Nat → Except FetchExc String) :
    ∀ (rem a : Nat), (retryLoop f a rem).attempts.length ≤ rem := by
  intro rem
  induction rem with
  | zero => intro a; simp [retryLoop]
  | succ n ih =>
    intro a
    rw [retryLoop]
    cases hfa : f a with
    | ok s => simp
    | error e =>
      cases e with
      | timeoutError => simp
      | httpError =>
        by_cases hn : n = 0
        · simp [hn]
        · simp only [hn, if_false]
          simpa using Nat.succ_le_succ (ih (a + 1))

/-- Every `before_sleep` log entry pairs an attempt number with the
tenacity wait computed from that very attempt number. -/
theorem retryLoop_sleeps_wait (f : Nat → Except FetchExc String) :
    ∀ (rem a : Nat), ∀ p ∈ (retryLoop f a rem).sleeps,
      p.2 = wait_exponential 1 2 10 p.1 := by
  intro rem
  induction rem with
  | zero => intro a p hp; simp [retryLoop] at hp
  | succ n ih =>
    intro a p hp
    rw [retryLoop] at hp
    cases hfa : f a with
    | ok s => rw [hfa] at hp; simp at hp
    | error e =>
      cases e with
      | timeoutError => rw [hfa] at hp; simp at hp
      | httpError =>
        rw [hfa] at hp
        by_cases hn : n = 0
        · simp [hn] at hp
        · simp only [hn, if_false] at hp
          simp only [List.mem_cons] at hp
          cases hp with
          | inl h => subst h; rfl
          | inr h => exact ih (a + 1) p h

/-- Accepted unsigned decimal text denotes a non-negative rational. -/
theorem parseUnsignedDec_nonneg :
    ∀ (cs : List Char) (q : ℚ), parseUnsignedDec cs = some q → 0 ≤ q := by
  intro cs q h
  simp only [parseUnsignedDec] at h
  split_ifs at h with h1 h2 h3 h4 h5
  · rw [← Option.some.inj h]
    exact Nat.cast_nonneg _
  · rw [← Option.some.inj h]
    exact add_nonneg (Nat.cast_nonneg _)
      (div_nonneg (Nat.cast_nonneg _) (pow_nonneg (by norm_num) _))

/-- Claim C1: in every reachable state of the violations store the
natural-key tuple (company, year, agency, penaltyAmount) identifies at
most one stored row, and persisting a record whose tuple equals that of
an already-stored row — even with different currentParent or
currentParentIndustry text — leaves the store unchanged: no second row,
no overwrite, and (`store_records` being total) no error. -/
theorem dedupStore_natural_key :
    (∀ db, Reachable db → KeysUnique db) ∧
    (∀ db r, HasKey db (recordKey r) → store_records db [r] = db) := by
  constructor
  · intro db h
    induction h with
    | init => exact List.Pairwise.nil
    | step db' rs _ ih => exact keysUnique_store_records rs db' ih
  · intro db r h
    show insertIgnore db r = db
    exact insertIgnore_of_hasKey h

/-- Witness for C1 at concrete inputs: storing `acmeRecord` and then a
same-key record with a different parent yields a key-unique store, and
re-persisting the variant into `[acmeRecord]` changes nothing. -/
theorem dedupStore_natural_key_witness :
    KeysUnique (store_records [] [acmeRecord, acmeRecordOtherParent]) ∧
    store_records [acmeRecord] [acmeRecordOtherParent] = [acmeRecord] :=
  ⟨dedupStore_natural_key.1 _
      (Reachable.step [] [acmeRecord, acmeRecordOtherParent] Reachable.init),
   dedupStore_natural_key.2 [acmeRecord] acmeRecordOtherParent
      ⟨acmeRecord, by decide, by decide⟩⟩

/-- Claim C2: persisting the same record list twice changes the store
only on the first call — the second call inserts zero rows and leaves
the store, hence also its row count, exactly as after the first call. -/
theorem persist_idempotent (db rs : List ViolationRecord) :
    store_records (store_records db rs) rs = store_records db rs ∧
    (store_records (store_records db rs) rs).length =
      (store_records db rs).length := by
  have h : store_records (store_records db rs) rs = store_records db rs :=
    store_records_of_hasKey_all rs (store_records db rs)
      (fun r hr => hasKey_store_records_all rs db r hr)
  exact ⟨h, by rw [h]⟩

/-- Claim C3: in a 3-page run whose second page always fails to fetch
while pages 1 and 3 normalize fully, the aggregated output is exactly
page 1's records followed by page 3's records, in page order and
within-page row order; `scrape_violation_tracker` is total, so the run
ends without an error. -/
theorem page2_failure_isolation (rows1 rows3 : List (List String))
    (recs1 recs3 : List ViolationRecord)
    (h1 : normalizeAll rows1 = some recs1)
    (h3 : normalizeAll rows3 = some recs3) :
    scrape_violation_tracker
      [PageInput.table rows1, PageInput.fetchFail, PageInput.table rows3] =
      recs1 ++ recs3 := by
  rw [scrape_cons, scrape_cons, scrape_cons]
  show processRows [] rows1 ++
      ([] ++ (processRows [] rows3 ++ scrape_violation_tracker [])) = recs1 ++ recs3
  rw [processRows_ok rows1 recs1 [] h1, processRows_ok rows3 recs3 [] h3]
  simp [scrape_violation_tracker]

/-- Witness for C3: a concrete run with one row on page 1 and one row
on page 3 and a dead page 2 aggregates both records in order. -/
theorem page2_failure_isolation_witness :
    scrape_violation_tracker
      [PageInput.table [acmeRow], PageInput.fetchFail, PageInput.table [betaRow]] =
      [acmeRecord, betaRecord] :=
  page2_failure_isolation [acmeRow] [betaRow] [acmeRecord] [betaRecord]
    (by decide) (by decide)

/-- Claim C4 counterexample: a page raising during normalization of its
second row still contributes its first row's record to the aggregated
output — the already-normalized rows of the failing page are not
discarded, contradicting "zero records from an erroring page". -/
theorem page_error_partial_rows_cex :
    normalizeRow badYearRow = Except.error NormError.yearParseError ∧
    scrape_violation_tracker [PageInput.table [acmeRow, badYearRow]] = [acmeRecord] ∧
    scrape_violation_tracker [PageInput.table [acmeRow, badYearRow]] ≠ [] :=
  ⟨by decide, by decide, by decide⟩

/-- Claim C4 (amended): a page failing at fetch, or with no recognized
table, contributes zero records; a page raising during normalization of
some row contributes exactly the records of the rows preceding the
first failing row — that row and the rest of the page contribute
nothing, and later pages are unaffected. -/
theorem page_error_partial_rows :
    (∀ acc, processPage acc PageInput.fetchFail = acc) ∧
    (∀ acc, processPage acc PageInput.noTable = acc) ∧
    (∀ (ps : List PageInput) (pre : List (List String)) (bad : List String)
        (rest : List (List String)) (recs : List ViolationRecord) (e : NormError),
      normalizeAll pre = some recs → normalizeRow bad = Except.error e →
      scrape_violation_tracker (PageInput.table (pre ++ bad :: rest) :: ps) =
        recs ++ scrape_violation_tracker ps) := by
  refine ⟨fun acc => rfl, fun acc => rfl, ?_⟩
  intro ps pre bad rest recs e hpre hbad
  rw [scrape_cons]
  show processRows [] (pre ++ bad :: rest) ++ _ = _
  rw [processRows_abort pre recs [] bad rest e hpre hbad]
  simp

/-- Witness for C4 (amended): a page whose second row has a bad penalty
cell contributes only its first row, after which the next page is
processed normally. -/
theorem page_error_partial_rows_witness :
    scrape_violation_tracker
      [PageInput.table [acmeRow, badPenaltyRow, betaRow], PageInput.table [betaRow]] =
      [acmeRecord, betaRecord] := by
  have h := page_error_partial_rows.2.2 [PageInput.table [betaRow]] [acmeRow]
    badPenaltyRow [betaRow] [acmeRecord] NormError.penaltyParseError
    (by decide) (by decide)
  have h2 : scrape_violation_tracker [PageInput.table [betaRow]] = [betaRecord] := by
    decide
  rw [h2] at h
  exact h

/-- Claim C5: penalty normalization removes exactly the characters `$`
and `,` from the whitespace-trimmed cell; an empty result yields `0.0`;
a non-empty non-numeric result fails with the penalty parse error,
which aborts only that page — the rest of the run is unaffected. -/
theorem normalizePenalty_spec :
    (∀ t, (stripPenalty t).data =
      (pyStrip t).data.filter (fun c => !(c == '$' || c == ','))) ∧
    (∀ t, stripPenalty t = "" → normalizePenalty t = Except.ok 0) ∧
    (∀ t, stripPenalty t ≠ "" → parseDecimal (stripPenalty t) = none →
      normalizePenalty t = Except.error NormError.penaltyParseError) ∧
    (∀ (cols : List String) (rest : List PageInput), cols.length = 7 →
      normalizePenalty (cols.getD 6 "") = Except.error NormError.penaltyParseError →
      scrape_violation_tracker (PageInput.table [cols] :: rest) =
        scrape_violation_tracker rest) := by
  refine ⟨?_, ?_, ?_, ?_⟩
  · intro t
    have e1 : (stripPenalty t).data =
        ((pyStrip t).data.filter (fun x => x != '$')).filter (fun x => x != ',') := rfl
    rw [e1, List.filter_filter]
    exact List.filter_congr (fun a _ => by
      cases h1 : a == '$' <;> cases h2 : a == ',' <;> simp [bne, h1, h2])
  · intro t h
    simp [normalizePenalty, h]
  · intro t hne hparse
    simp [normalizePenalty, hne, hparse]
  · intro cols rest hlen hpen
    have hrow : normalizeRow cols = Except.error NormError.penaltyParseError := by
      simp only [normalizeRow, hlen]
      rw [if_neg (by omega), hpen]
    rw [scrape_cons]
    show processRows [] [cols] ++ _ = _
    simp [processRows, hrow]

/-- Witness for C5: text stripping to empty yields `0.0`; the
non-numeric cell "n/a" yields the parse error; and a page consisting of
one such row contributes nothing while the run continues. -/
theorem normalizePenalty_spec_witness :
    normalizePenalty " $, " = Except.ok 0 ∧
    normalizePenalty "n/a" = Except.error NormError.penaltyParseError ∧
    scrape_violation_tracker [PageInput.table [badPenaltyRow]] =
      scrape_violation_tracker [] :=
  ⟨normalizePenalty_spec.2.1 " $, " (by decide),
   normalizePenalty_spec.2.2.1 "n/a" (by decide) (by decide),
   normalizePenalty_spec.2.2.2 badPenaltyRow [] (by decide) (by decide)⟩

/-- Claim C6 counterexample: the normalizer accepts the raw penalty
text "-5" and produces the negative amount −5 — accepted penalties are
not always non-negative. -/
theorem normalizePenalty_negative_cex :
    normalizePenalty "-5" = Except.ok (-5 : ℚ) ∧ ¬ (0 ≤ (-5 : ℚ)) :=
  ⟨by decide, by decide⟩

/-- Claim C6 (amended): every accepted penalty whose stripped text does
not begin with a minus sign is non-negative — the code performs no sign
check, so a leading '-' is the only path to a negative amount. -/
theorem normalizePenalty_nonneg (t : String) (q : ℚ)
    (hok : normalizePenalty t = Except.ok q)
    (hsign : (stripPenalty t).data.head? ≠ some '-') : 0 ≤ q := by
  simp only [normalizePenalty] at hok
  by_cases hs : stripPenalty t = ""
  · rw [if_pos hs] at hok
    exact le_of_eq (Except.ok.inj hok)
  · rw [if_neg hs] at hok
    cases hp : parseDecimal (stripPenalty t) with
    | none => rw [hp] at hok; cases hok
    | some q' =>
      rw [hp] at hok
      have hq : q' = q := Except.ok.inj hok
      subst hq
      simp only [parseDecimal, if_neg hsign] at hp
      by_cases hplus : (stripPenalty t).data.head? = some '+'
      · rw [if_pos hplus] at hp
        exact parseUnsignedDec_nonneg _ _ hp
      · rw [if_neg hplus] at hp
        exact parseUnsignedDec_nonneg _ _ hp

/-- Witness for C6 (amended) at the cell "$1,250". -/
theorem normalizePenalty_nonneg_witness :
    normalizePenalty "$1,250" = Except.ok (1250 : ℚ) ∧ 0 ≤ (1250 : ℚ) :=
  ⟨by decide, normalizePenalty_nonneg "$1,250" 1250 (by decide) (by decide)⟩

/-- Claim C7 counterexample: under persistent HTTP failure the two
waits inside the 3-attempt budget are 2 and 2 time units — the second
wait does not double the first, so the backoff does not double from a
base of 2 as claimed. -/
theorem retry_backoff_cex :
    (fetch_page (fun _ => Except.error FetchExc.httpError)).sleeps =
      [(1, 2), (2, 2)] ∧
    (fetch_page (fun _ => Except.error FetchExc.httpError)).sleeps ≠
      [(1, 2), (2, 4)] :=
  ⟨by decide, by decide⟩

/-- Claim C7 (amended): at most 3 attempts per call; a non-HTTP failure
on the first attempt propagates immediately with no retry; each retry's
log entry carries its attempt number paired with the tenacity wait
max(2, min(2^(attempt−1), 10)) — a min-clamped exponential whose two
in-budget values are both 2; and exhausting the budget propagates the
final error with the full trace [1,2,3] / waits [2,2]. -/
theorem fetch_retry_policy (f : Nat → Except FetchExc String) :
    (fetch_page f).attempts.length ≤ 3 ∧
    (f 1 = Except.error FetchExc.timeoutError →
      fetch_page f = ⟨Except.error FetchExc.timeoutError, [1], []⟩) ∧
    ((∀ n, f n = Except.error FetchExc.httpError) →
      fetch_page f =
        ⟨Except.error FetchExc.httpError, [1, 2, 3], [(1, 2), (2, 2)]⟩) ∧
    (∀ p ∈ (fetch_page f).sleeps, p.2 = wait_exponential 1 2 10 p.1) ∧
    (∀ n, wait_exponential 1 2 10 n = max 2 (min (2 ^ (n - 1)) 10)) := by
  refine ⟨retryLoop_attempts_length f 3 1, ?_, ?_, retryLoop_sleeps_wait f 3 1, ?_⟩
  · intro h
    show retryLoop f 1 3 = _
    rw [retryLoop, h]
  · intro h
    have e3 : retryLoop f 3 1 = ⟨Except.error FetchExc.httpError, [3], []⟩ := by
      rw [retryLoop, h 3]
      rfl
    have e2 : retryLoop f 2 2 =
        ⟨Except.error FetchExc.httpError, [2, 3], [(2, 2)]⟩ := by
      rw [retryLoop, h 2]
      simp [e3, wait_exponential]
    show retryLoop f 1 3 = _
    rw [retryLoop, h 1]
    simp [e2, wait_exponential]
  · intro n
    simp [wait_exponential, Nat.zero_max]

/-- Witness for C7 (amended): the exhaustion trace under all-HTTP
failure, and the no-retry trace under a first-attempt timeout. -/
theorem fetch_retry_policy_witness :
    fetch_page (fun _ => Except.error FetchExc.httpError) =
      ⟨Except.error FetchExc.httpError, [1, 2, 3], [(1, 2), (2, 2)]⟩ ∧
    fetch_page (fun _ => Except.error FetchExc.timeoutError) =
      ⟨Except.error FetchExc.timeoutError, [1], []⟩ :=
  ⟨(fetch_retry_policy (fun _ => Except.error FetchExc.httpError)).2.2.1
      (fun _ => rfl),
   (fetch_retry_policy (fun _ => Except.error FetchExc.timeoutError)).2.1 rfl⟩

/-- Claim C8: on a 7-cell row whose year and penalty parse, the
normalizer trims every text cell; the optional parent cells become null
exactly when empty after trimming; the required company, offense-type
and agency cells keep the (possibly empty) trimmed string — required
emptiness is not rejected at this layer. -/
theorem normalizeRow_field_rules (r0 r1 r2 r3 r4 r5 r6 : String) (y : Int) (q : ℚ)
    (hy : parseInt (pyStrip r4) = some y)
    (hq : normalizePenalty r6 = Except.ok q) :
    normalizeRow [r0, r1, r2, r3, r4, r5, r6] =
      Except.ok
        { company := pyStrip r0
        , current_parent := if pyStrip r1 = "" then none else some (pyStrip r1)
        , current_parent_industry :=
            if pyStrip r2 = "" then none else some (pyStrip r2)
        , primary_offense_type := pyStrip r3
        , year := y
        , agency := pyStrip r5
        , penalty_amount := q } := by
  simp [normalizeRow, optText, hy, hq]

/-- Witness for C8: an all-whitespace company cell survives as the
empty string (not rejected, not nulled), while the optional parent cell
is trimmed and kept and the empty industry cell becomes null. -/
theorem normalizeRow_field_rules_witness :
    normalizeRow ["  ", " Acme Holdings ", "", "Pollution", " 2019 ", "EPA", ""] =
      Except.ok
        { company := ""
        , current_parent := some "Acme Holdings"
        , current_parent_industry := none
        , primary_offense_type := "Pollution"
        , year := 2019
        , agency := "EPA"
        , penalty_amount := 0 } := by
  have h := normalizeRow_field_rules "  " " Acme Holdings " "" "Pollution"
    " 2019 " "EPA" "" 2019 0 (by decide) (by decide)
  exact h

/-- Claim C9 counterexample: in `src/scraper.py` a run that stored its
record successfully still ends in an error when the log write fails —
`save_logs` there has no handler and `main` no `except` — even though
the stored row remains stored. -/
theorem runlog_failure_fatal_cex :
    (ScraperPy.main [PageInput.table [acmeRow]] false 0 []).1 = [acmeRecord] ∧
    (ScraperPy.main [PageInput.table [acmeRow]] false 0 []).2 = Except.error () :=
  ⟨by decide, by decide⟩

/-- Claim C9 (amended): a log-write failure never changes what is
stored — in both variants the database state is identical whatever the
log outcome — and in `src/main.py` the run always completes normally
(`save_logs` catches the failure; `main_scraper` is total); only in
`src/scraper.py` does the failure propagate out of the run. -/
theorem runlog_failure_isolation (pages : List PageInput) (logOk : Bool)
    (now : Nat) (db : List ViolationRecord) :
    (MainPy.main_scraper pages logOk now db).1 =
      (MainPy.main_scraper pages true now db).1 ∧
    (ScraperPy.main pages logOk now db).1 =
      (ScraperPy.main pages true now db).1 := by
  by_cases hc : scrape_violation_tracker pages = [] <;> cases logOk <;>
    simp [MainPy.main_scraper, MainPy.save_logs, ScraperPy.main, ScraperPy.save_logs, hc]

/-- Claim C10 counterexample: a `src/main.py` run that collected zero
records (all pages failing) creates no RunLog entry at all — not the
"exactly one" the claim requires of zero-record runs. -/
theorem runlog_zero_records_cex :
    (MainPy.main_scraper [PageInput.fetchFail, PageInput.fetchFail, PageInput.fetchFail]
        true 0 []).2 = [] ∧
    (MainPy.main_scraper [PageInput.fetchFail, PageInput.fetchFail, PageInput.fetchFail]
        true 0 []).2.length ≠ 1 :=
  ⟨by decide, by decide⟩

/-- Claim C10 (amended): when the log write succeeds, a run that
collected at least one record creates exactly one RunLog entry
{timestamp, records_processed} with records_processed equal to the
number of records attempted for storage (the scraped count, independent
of how many inserts the dedup store skips); `src/scraper.py` does so on
every run including zero-record ones, while `src/main.py` skips the
RunLog on zero-record runs. -/
theorem runlog_once_with_count (pages : List PageInput) (now : Nat)
    (db : List ViolationRecord) :
    (scrape_violation_tracker pages ≠ [] →
      (MainPy.main_scraper pages true now db).2 =
        [⟨now, (scrape_violation_tracker pages).length⟩]) ∧
    (ScraperPy.main pages true now db).2 =
      Except.ok [⟨now, (scrape_violation_tracker pages).length⟩] := by
  constructor
  · intro h
    simp [MainPy.main_scraper, MainPy.save_logs, List.isEmpty_iff, h]
  · simp [ScraperPy.main, ScraperPy.save_logs]

/-- Witness for C10 (amended): a one-row page over a database already
holding that row — zero rows are inserted, yet records_processed is the
attempted count 1, in both variants. -/
theorem runlog_once_with_count_witness :
    (MainPy.main_scraper [PageInput.table [acmeRow]] true 7 [acmeRecord]).2 =
      [⟨7, 1⟩] ∧
    (ScraperPy.main [PageInput.table [acmeRow]] true 7 [acmeRecord]).2 =
      Except.ok [⟨7, 1⟩] :=
  ⟨(runlog_once_with_count [PageInput.table [acmeRow]] 7 [acmeRecord]).1 (by decide),
   (runlog_once_with_count [PageInput.table [acmeRow]] 7 [acmeRecord]).2⟩

end ViolationTracker
